import Mathlib

/-!
# Verification of the voice-session core of `english_teacher_agent`

Shallow embedding of the streaming/playback core of `src/App.tsx`:
the playback scheduler state (`nextStartTimeRef`, `audioSourcesRef`,
`isProfessorSpeaking`), the `stopAllAudio` reset, the `onmessage`
handler (transcript aggregation, audio enqueue, interruption), the
lifecycle callbacks `onerror` / `onclose`, `handleStopSession`, and the
PCM codec (modelled from the spec, since `src/utils/audio.ts` is not in
the source tree).

Times and durations are rationals (the reference uses floating-point
seconds; the scheduling algebra is exact).  Timestamps of transcript
messages are naturals (`Date.now()` milliseconds).
-/

set_option autoImplicit false

namespace EnglishTeacher

/-- The `SessionState` enum from `src/types.ts` (appended to `src/App.tsx`). -/
inductive SessionState where
  | DISCONNECTED
  | CONNECTING
  | CONNECTED
  | ERROR
deriving DecidableEq, Repr

/-- Speaker role of a `TranscriptionMessage` (`'user' | 'professor'`). -/
inductive Role where
  | user
  | professor
deriving DecidableEq, Repr

/-- The `TranscriptionMessage` record from `src/types.ts`. -/
structure TranscriptionMessage where
  role : Role
  text : String
  timestamp : ℕ
deriving DecidableEq, Repr

/-- One microphone track of the `MediaStream` held in `micStreamRef`;
`stopped` records whether `track.stop()` has been called on it. -/
structure Track where
  stopped : Bool
deriving DecidableEq, Repr

/-- An `AudioBufferSourceNode` held in `audioSourcesRef`: a playback
segment scheduled at `startTime` for `duration` seconds.  `finished`
means its playback already ended naturally (so a further `stop()`
throws); `stopped` means `stop()` was called on it. -/
structure AudioSource where
  startTime : ℚ
  duration : ℚ
  finished : Bool
  stopped : Bool
deriving DecidableEq, Repr

/-- The mutable state of the `App` component that the streaming core
reads and writes: React state plus the refs.  `hasOutputCtx` models
`outputAudioCtxRef.current` being non-null; `sessionOpen` models
`sessionRef.current` being non-null. -/
structure AppState where
  sessionState : SessionState
  messages : List TranscriptionMessage
  isProfessorSpeaking : Bool
  errorMessage : Option String
  micStream : Option (List Track)
  nextStartTime : ℚ
  audioSources : List AudioSource
  currentInputTrans : String
  currentOutputTrans : String
  hasOutputCtx : Bool
  sessionOpen : Bool
deriving DecidableEq, Repr

/-! ## `stopAllAudio` (src/App.tsx lines 50–57)

```ts
const stopAllAudio = () => {
  audioSourcesRef.current.forEach(source => {
    try { source.stop(); } catch (e) {}
  });
  audioSourcesRef.current.clear();
  nextStartTimeRef.current = 0;
  setIsProfessorSpeaking(false);
};
```
-/

/-- Model of `source.stop()`: fails (throws `InvalidStateError`) when the segment
has already finished playing, otherwise marks it stopped. -/
def stopSource (s : AudioSource) : Except String AudioSource :=
  if s.finished then Except.error "InvalidStateError"
  else Except.ok { s with stopped := true }

/-- The `forEach` loop of `stopAllAudio` with the `try { } catch (e) {}`
around each `source.stop()`: a failing stop is swallowed and iteration
continues. -/
def forEachTryStop : List AudioSource → Except String Unit
  | [] => Except.ok ()
  | s :: rest =>
    match stopSource s with
    | Except.ok _ => forEachTryStop rest
    | Except.error _ => forEachTryStop rest

/-- Net state effect of `stopAllAudio`: clear the in-flight set, reset
the cursor to 0, drop the speaking flag.  All other fields untouched. -/
def stopAllAudio (st : AppState) : AppState :=
  { st with audioSources := [], nextStartTime := 0, isProfessorSpeaking := false }

/-- Variant of `stopAllAudio` with its fallible stop loop made explicit: an
uncaught exception in the loop would propagate as `Except.error`. -/
def stopAllAudioE (st : AppState) : Except String AppState :=
  match forEachTryStop st.audioSources with
  | Except.ok _ => Except.ok (stopAllAudio st)
  | Except.error e => Except.error e

/-! ## Lifecycle callbacks (src/App.tsx lines 148–155, 167–177) -/

/-- The message `onerror` surfaces (line 150). -/
def transportErrorMessage : String :=
  "Connection lost. Please check your internet and try again."

/-- The fallback message of the setup-failure path (line 162). -/
def setupFallbackErrorMessage : String :=
  "Could not connect to Professor Claire."

/-- The `onerror` callback (lines 148–152): logs the error, surfaces the
transport-failure message, moves the session to ERROR.  Nothing else. -/
def onerror (st : AppState) : AppState :=
  { st with errorMessage := some transportErrorMessage
            sessionState := SessionState.ERROR }

/-- The `onclose` callback (lines 153–155): moves the session to
DISCONNECTED.  Nothing else. -/
def onclose (st : AppState) : AppState :=
  { st with sessionState := SessionState.DISCONNECTED }

/-- Model of `track.stop()` on a microphone track. -/
def stopTrack (t : Track) : Track :=
  { t with stopped := true }

/-- The `handleStopSession` handler (lines 167–177): close the session handle, stop
every microphone track, `stopAllAudio`, and move to DISCONNECTED. -/
def handleStopSession (st : AppState) : AppState :=
  let st1 := { st with sessionOpen := false }
  let st2 :=
    match st1.micStream with
    | some tracks => { st1 with micStream := some (tracks.map stopTrack) }
    | none => st1
  let st3 := stopAllAudio st2
  { st3 with sessionState := SessionState.DISCONNECTED }

/-- Observable released/active flag of the microphone: `true` iff every
track of the held stream (if any) has been stopped. -/
def micReleased (st : AppState) : Bool :=
  match st.micStream with
  | none => true
  | some tracks => tracks.all fun t => t.stopped

/-! ## The `onmessage` handler (src/App.tsx lines 101–147)

One inbound message may carry transcript fragments, a turn-complete
flag, an inline audio payload, and an interrupted flag; the handler
processes them in exactly that order, then returns.  The inline audio
payload is represented by the duration (in seconds) of its decoded
buffer, which is all the scheduler reads from it. -/

/-- One message of the inbound channel (`LiveServerMessage`
`serverContent` fields read by the handler). -/
structure ServerMessage where
  inputTranscription : Option String
  outputTranscription : Option String
  turnComplete : Bool
  inlineAudioData : Option ℚ
  interrupted : Bool
deriving DecidableEq, Repr

/-- Observable playback actions of one handler run, in program order:
`enqueue start duration` for `source.start(...)` of a new segment,
`reset` for a `stopAllAudio()` call. -/
inductive AudioEvent where
  | enqueue (startTime duration : ℚ)
  | reset
deriving DecidableEq, Repr

def isReset : AudioEvent → Bool
  | AudioEvent.reset => true
  | _ => false

def isEnqueue : AudioEvent → Bool
  | AudioEvent.enqueue _ _ => true
  | _ => false

/-- The turn-complete branch (lines 109–118): flush each non-empty
accumulator as a message (user first, then professor), then clear both
accumulators unconditionally. -/
def flushTurn (st : AppState) (now : ℕ) : AppState :=
  let st1 :=
    if st.currentInputTrans ≠ "" then
      { st with messages :=
          st.messages ++ [{ role := Role.user, text := st.currentInputTrans, timestamp := now }] }
    else st
  let st2 :=
    if st1.currentOutputTrans ≠ "" then
      { st1 with messages :=
          st1.messages ++ [{ role := Role.professor, text := st1.currentOutputTrans, timestamp := now }] }
    else st1
  { st2 with currentInputTrans := "", currentOutputTrans := "" }

/-- Transcript handling of one message (lines 103–118): append the
fragments to the per-role accumulators, then flush on turn-complete. -/
def transcriptStage (st : AppState) (msg : ServerMessage) (now : ℕ) : AppState :=
  let st1 :=
    match msg.inputTranscription with
    | some t => { st with currentInputTrans := st.currentInputTrans ++ t }
    | none => st
  let st2 :=
    match msg.outputTranscription with
    | some t => { st1 with currentOutputTrans := st1.currentOutputTrans ++ t }
    | none => st1
  if msg.turnComplete then flushTurn st2 now else st2

/-- The audio-enqueue block (lines 123–141): raise the speaking flag,
clamp the cursor to the device clock, schedule the decoded segment at
the clamped cursor, advance the cursor by its duration, add the segment
to the in-flight set. -/
def enqueueAudio (st : AppState) (duration deviceTime : ℚ) : AppState × AudioEvent :=
  let start := max st.nextStartTime deviceTime
  ({ st with
      isProfessorSpeaking := true
      nextStartTime := start + duration
      audioSources := st.audioSources ++
        [{ startTime := start, duration := duration, finished := false, stopped := false }] },
   AudioEvent.enqueue start duration)

/-- Audio handling of one message (lines 120–142): runs the enqueue
block iff the message carries inline audio and the output context is
present. -/
def audioStage (st : AppState) (msg : ServerMessage) (deviceTime : ℚ) :
    AppState × List AudioEvent :=
  match msg.inlineAudioData with
  | some d =>
    if st.hasOutputCtx then
      let r := enqueueAudio st d deviceTime
      (r.1, [r.2])
    else (st, [])
  | none => (st, [])

/-- Interruption handling of one message (lines 144–146): call
`stopAllAudio` iff the interrupted flag is set. -/
def interruptStage (st : AppState) (msg : ServerMessage) : AppState × List AudioEvent :=
  if msg.interrupted then (stopAllAudio st, [AudioEvent.reset]) else (st, [])

/-- The whole `onmessage` handler: transcripts, then audio, then
interruption, returning the new state and the playback-event trace in
program order.  `deviceTime` is `outputAudioCtx.currentTime`, `now` is
`Date.now()`. -/
def onmessage (st : AppState) (msg : ServerMessage) (deviceTime : ℚ) (now : ℕ) :
    AppState × List AudioEvent :=
  let st1 := transcriptStage st msg now
  let a := audioStage st1 msg deviceTime
  let i := interruptStage a.1 msg
  (i.1, a.2 ++ i.2)

/-- Returns `true` iff no enqueue occurs before the first reset of a trace:
the ordering the interruption claim asserts for a message that carries
both audio and the interrupted flag. -/
def resetBeforeEnqueues (tr : List AudioEvent) : Bool :=
  (tr.takeWhile fun e => !(isReset e)).all fun e => !(isEnqueue e)

/-! ## Repeated enqueues (for the gapless-scheduling property) -/

/-- Run the enqueue block over a list of (duration, deviceTime) pairs in
arrival order, collecting the scheduled segments as events. -/
def enqueueSeq : AppState → List (ℚ × ℚ) → AppState × List AudioEvent
  | st, [] => (st, [])
  | st, (d, t) :: rest =>
    let r := enqueueAudio st d t
    let s := enqueueSeq r.1 rest
    (s.1, r.2 :: s.2)

/-- No idle gaps for a sequence of enqueues starting at cursor `c`:
at each enqueue the device clock has not overtaken the cursor. -/
def noIdleGaps : ℚ → List (ℚ × ℚ) → Prop
  | _, [] => True
  | c, (d, t) :: rest => t ≤ c ∧ noIdleGaps (c + d) rest

/-- The back-to-back schedule from cursor `c`: segment `k` starts at
`c` plus the sum of the durations before it. -/
def scheduleFrom : ℚ → List (ℚ × ℚ) → List AudioEvent
  | _, [] => []
  | c, (d, _) :: rest => AudioEvent.enqueue c d :: scheduleFrom (c + d) rest

/-- Two scheduled segments do not overlap: their half-open intervals
`[start, start + duration)` are disjoint. -/
def segDisjoint : AudioEvent → AudioEvent → Prop
  | AudioEvent.enqueue s d, AudioEvent.enqueue s' d' => s + d ≤ s' ∨ s' + d' ≤ s
  | _, _ => True

/-! ## PCM codec

`decode`, `encode`, `decodeAudioData` and `createBlobFromPCM` live in
`src/utils/audio.ts`, which is not part of the provided source tree;
the definitions below are therefore taken from the spec's description
of the codec (§4.1), not from code. -/

/-- Modelled from the spec: the clamp of `createBlobFromPCM`
(`clamp(s, -1, 1)`), for the missing `src/utils/audio.ts`. -/
def clampSample (s : ℚ) : ℚ := max (-1) (min 1 s)

/-- Modelled from the spec: the sample quantizer of
`createBlobFromPCM` — `round(clamp(s, -1, 1) * 32767)` — for the
missing `src/utils/audio.ts`. -/
def encodeSample (s : ℚ) : ℤ := round (clampSample s * 32767)

/-- Modelled from the spec: little-endian serialization of one 16-bit
signed sample (two's complement) into two bytes, for the missing
`src/utils/audio.ts`. -/
def int16ToBytesLE (v : ℤ) : List ℕ :=
  let x := (v % 65536).toNat
  [x % 256, x / 256]

/-- Modelled from the spec: `createBlobFromPCM`'s byte payload — each
float sample quantized to 16-bit signed and serialized little-endian —
for the missing `src/utils/audio.ts`. -/
def encodeFrame : List ℚ → List ℕ
  | [] => []
  | s :: rest => int16ToBytesLE (encodeSample s) ++ encodeFrame rest

/-- Modelled from the spec: read one little-endian 16-bit signed value
from two bytes, for the missing `src/utils/audio.ts`. -/
def bytesToInt16LE (b0 b1 : ℕ) : ℤ :=
  let v := b0 + 256 * b1
  if v < 32768 then (v : ℤ) else (v : ℤ) - 65536

/-- Modelled from the spec: the decoder — each little-endian 16-bit
pair becomes a float sample divided by 32768, a trailing partial sample
is truncated — for the missing `src/utils/audio.ts`. -/
def decodeChunk : List ℕ → List ℚ
  | b0 :: b1 :: rest => (bytesToInt16LE b0 b1 : ℚ) / 32768 :: decodeChunk rest
  | _ => []

/-! ## Shared concrete states for witnesses and counterexamples -/

/-- A connected session with one live microphone track, one in-flight
playback segment, and a cursor that has advanced to 5 seconds. -/
def midPlaybackState : AppState :=
  { sessionState := SessionState.CONNECTED
    messages := []
    isProfessorSpeaking := true
    errorMessage := none
    micStream := some [{ stopped := false }]
    nextStartTime := 5
    audioSources := [{ startTime := 4, duration := 1, finished := false, stopped := false }]
    currentInputTrans := ""
    currentOutputTrans := ""
    hasOutputCtx := true
    sessionOpen := true }

/-! ## Helper lemmas -/

theorem forEachTryStop_ok (l : List AudioSource) : forEachTryStop l = Except.ok () := by
  induction l with
  | nil => rfl
  | cons s rest ih =>
    unfold forEachTryStop
    cases h : stopSource s <;> simp [h, ih]

theorem flushTurn_nextStartTime (st : AppState) (now : ℕ) :
    (flushTurn st now).nextStartTime = st.nextStartTime := by
  simp only [flushTurn]
  split_ifs <;> rfl

theorem flushTurn_hasOutputCtx (st : AppState) (now : ℕ) :
    (flushTurn st now).hasOutputCtx = st.hasOutputCtx := by
  simp only [flushTurn]
  split_ifs <;> rfl

theorem transcriptStage_nextStartTime (st : AppState) (msg : ServerMessage) (now : ℕ) :
    (transcriptStage st msg now).nextStartTime = st.nextStartTime := by
  obtain ⟨mi, mo, tc, ad, ir⟩ := msg
  cases mi <;> cases mo <;>
    simp only [transcriptStage] <;> split_ifs <;> simp [flushTurn_nextStartTime]

theorem transcriptStage_hasOutputCtx (st : AppState) (msg : ServerMessage) (now : ℕ) :
    (transcriptStage st msg now).hasOutputCtx = st.hasOutputCtx := by
  obtain ⟨mi, mo, tc, ad, ir⟩ := msg
  cases mi <;> cases mo <;>
    simp only [transcriptStage] <;> split_ifs <;> simp [flushTurn_hasOutputCtx]

/-! ## Claim theorems -/

/-- C9: the `onclose` callback only moves the session to DISCONNECTED;
the microphone stream, in-flight segment set, playback cursor,
speaking flag, transcript accumulators, message log and error slot are
all left unchanged. -/
theorem onclose_only_changes_session_state (st : AppState) :
    (onclose st).sessionState = SessionState.DISCONNECTED ∧
    (onclose st).micStream = st.micStream ∧
    (onclose st).audioSources = st.audioSources ∧
    (onclose st).nextStartTime = st.nextStartTime ∧
    (onclose st).isProfessorSpeaking = st.isProfessorSpeaking ∧
    (onclose st).currentInputTrans = st.currentInputTrans ∧
    (onclose st).currentOutputTrans = st.currentOutputTrans ∧
    (onclose st).messages = st.messages ∧
    (onclose st).errorMessage = st.errorMessage ∧
    (onclose st).sessionOpen = st.sessionOpen :=
  ⟨rfl, rfl, rfl, rfl, rfl, rfl, rfl, rfl, rfl, rfl⟩

/-- C10: `stopAllAudio` is idempotent — a second application yields
exactly the state of the first, in which the in-flight set is empty,
the cursor is 0, and the speaking flag is false. -/
theorem stopAllAudio_idempotent (st : AppState) :
    stopAllAudio (stopAllAudio st) = stopAllAudio st ∧
    (stopAllAudio st).audioSources = [] ∧
    (stopAllAudio st).nextStartTime = 0 ∧
    (stopAllAudio st).isProfessorSpeaking = false :=
  ⟨rfl, rfl, rfl, rfl⟩

/-- C8: `stopAllAudio` never fails: even though stopping an already
finished segment raises an error, the per-segment `try/catch` swallows
it, the loop completes for every in-flight set, the reset state is
reached, and the error slot is untouched. -/
theorem stopAllAudio_never_fails (st : AppState) :
    stopAllAudioE st = Except.ok (stopAllAudio st) ∧
    (stopAllAudio st).audioSources = [] ∧
    (stopAllAudio st).nextStartTime = 0 ∧
    (stopAllAudio st).isProfessorSpeaking = false ∧
    (stopAllAudio st).errorMessage = st.errorMessage ∧
    stopSource { startTime := 0, duration := 1, finished := true, stopped := false } =
      Except.error "InvalidStateError" := by
  refine ⟨?_, rfl, rfl, rfl, rfl, rfl⟩
  unfold stopAllAudioE
  rw [forEachTryStop_ok]

/-- C2 counterexample: a transport error on a mid-playback state does
not release the owned resources — the microphone track is still live,
the in-flight set is still non-empty, and the cursor is not reset —
refuting the claim that `onerror` runs the shutdown path. -/
theorem onerror_no_shutdown_counterexample :
    (onerror midPlaybackState).sessionState = SessionState.ERROR ∧
    (onerror midPlaybackState).micStream = some [{ stopped := false }] ∧
    (onerror midPlaybackState).audioSources ≠ [] ∧
    (onerror midPlaybackState).nextStartTime ≠ 0 := by
  refine ⟨rfl, rfl, ?_, ?_⟩ <;> decide

/-- C2 (amended): an asynchronous transport error moves the session to
ERROR and surfaces a message distinct from the setup-failure fallback,
but releases nothing: the microphone stream, in-flight set and cursor
are exactly as before the error (they are only released by the stop
path). -/
theorem onerror_state_and_message (st : AppState) :
    (onerror st).sessionState = SessionState.ERROR ∧
    (onerror st).errorMessage = some transportErrorMessage ∧
    transportErrorMessage ≠ setupFallbackErrorMessage ∧
    (onerror st).micStream = st.micStream ∧
    (onerror st).audioSources = st.audioSources ∧
    (onerror st).nextStartTime = st.nextStartTime := by
  refine ⟨rfl, rfl, ?_, rfl, rfl, rfl⟩
  decide

/-- C6: `handleStopSession` from the Connected state ends in
DISCONNECTED with every microphone track stopped, the in-flight
segment set empty, and the playback cursor reset to 0. -/
theorem stop_session_releases_everything (st : AppState)
    (h : st.sessionState = SessionState.CONNECTED) :
    (handleStopSession st).sessionState = SessionState.DISCONNECTED ∧
    (handleStopSession st).micStream = Option.map (List.map stopTrack) st.micStream ∧
    micReleased (handleStopSession st) = true ∧
    (handleStopSession st).audioSources = [] ∧
    (handleStopSession st).nextStartTime = 0 := by
  unfold handleStopSession micReleased stopAllAudio
  cases hm : st.micStream with
  | none => simp [hm]
  | some tracks => simp [hm, stopTrack, List.all_eq_true]

/-- C6 witness: stopping the concrete mid-playback connected session. -/
theorem stop_session_releases_everything_witness :
    (handleStopSession midPlaybackState).sessionState = SessionState.DISCONNECTED ∧
    (handleStopSession midPlaybackState).micStream =
      Option.map (List.map stopTrack) midPlaybackState.micStream ∧
    micReleased (handleStopSession midPlaybackState) = true ∧
    (handleStopSession midPlaybackState).audioSources = [] ∧
    (handleStopSession midPlaybackState).nextStartTime = 0 :=
  stop_session_releases_everything midPlaybackState rfl

/-- C4: after `stopAllAudio` the in-flight set is empty and the
speaking flag is false; the cursor is 0, so the next enqueue clamps its
start time to the current device time (`max 0 t = t`), not to any
pre-reset cursor value. -/
theorem reset_then_enqueue_starts_now (st : AppState) (d t : ℚ) (ht : 0 ≤ t) :
    (stopAllAudio st).audioSources = [] ∧
    (stopAllAudio st).isProfessorSpeaking = false ∧
    (stopAllAudio st).nextStartTime = 0 ∧
    (enqueueAudio (stopAllAudio st) d t).2 = AudioEvent.enqueue t d := by
  refine ⟨rfl, rfl, rfl, ?_⟩
  simp [enqueueAudio, stopAllAudio, max_eq_right ht]

/-- C4 witness: resetting the mid-playback state and enqueueing a
1-second segment at device time 2 starts it at 2, not at the old
cursor 5. -/
theorem reset_then_enqueue_starts_now_witness :
    (stopAllAudio midPlaybackState).audioSources = [] ∧
    (stopAllAudio midPlaybackState).isProfessorSpeaking = false ∧
    (stopAllAudio midPlaybackState).nextStartTime = 0 ∧
    (enqueueAudio (stopAllAudio midPlaybackState) 1 2).2 = AudioEvent.enqueue 2 1 :=
  reset_then_enqueue_starts_now midPlaybackState 1 2 (by norm_num)

/-- An inbound message carrying both an inline audio payload (decoded
duration 1s) and the interrupted flag. -/
def audioInterruptMsg : ServerMessage :=
  { inputTranscription := none, outputTranscription := none, turnComplete := false,
    inlineAudioData := some 1, interrupted := true }

/-- C1 (amended): for a message carrying both audio and the interrupted
flag, the handler enqueues the audio FIRST and resets AFTER, still
within the same message's processing: the trace is exactly
enqueue-then-reset, and once the message is fully handled the in-flight
set is empty, the cursor is 0 and the speaking flag is false (the
segment enqueued from that very message is stopped by the reset before
any later message is processed). -/
theorem interruption_runs_after_enqueue (st : AppState) (msg : ServerMessage) (d dt : ℚ) (now : ℕ)
    (ha : msg.inlineAudioData = some d) (hi : msg.interrupted = true)
    (hctx : st.hasOutputCtx = true) :
    (onmessage st msg dt now).2 =
      [AudioEvent.enqueue (max st.nextStartTime dt) d, AudioEvent.reset] ∧
    (onmessage st msg dt now).1.audioSources = [] ∧
    (onmessage st msg dt now).1.nextStartTime = 0 ∧
    (onmessage st msg dt now).1.isProfessorSpeaking = false := by
  have hctx1 : (transcriptStage st msg now).hasOutputCtx = true := by
    rw [transcriptStage_hasOutputCtx]; exact hctx
  have hnst : (transcriptStage st msg now).nextStartTime = st.nextStartTime :=
    transcriptStage_nextStartTime st msg now
  simp [onmessage, audioStage, ha, hctx1, interruptStage, hi, enqueueAudio, stopAllAudio, hnst]

/-- C1 counterexample: on a concrete message that carries both audio
and the interrupted flag, the handler's playback trace is
`[enqueue 5 1, reset]` — the segment of that message is scheduled
(started) BEFORE the in-flight set is cleared, so the reset is not
performed ahead of the audio enqueue as the claim states. -/
theorem interruption_order_counterexample :
    audioInterruptMsg.inlineAudioData.isSome = true ∧
    audioInterruptMsg.interrupted = true ∧
    midPlaybackState.hasOutputCtx = true ∧
    (onmessage midPlaybackState audioInterruptMsg 0 0).2 =
      [AudioEvent.enqueue 5 1, AudioEvent.reset] ∧
    resetBeforeEnqueues (onmessage midPlaybackState audioInterruptMsg 0 0).2 = false := by
  refine ⟨rfl, rfl, rfl, ?_, ?_⟩ <;> decide

/-- C1 witness: the amended theorem at the concrete mid-playback state
and audio-plus-interrupted message. -/
theorem interruption_runs_after_enqueue_witness :
    (onmessage midPlaybackState audioInterruptMsg 0 0).2 =
      [AudioEvent.enqueue (max midPlaybackState.nextStartTime 0) 1, AudioEvent.reset] ∧
    (onmessage midPlaybackState audioInterruptMsg 0 0).1.audioSources = [] ∧
    (onmessage midPlaybackState audioInterruptMsg 0 0).1.nextStartTime = 0 ∧
    (onmessage midPlaybackState audioInterruptMsg 0 0).1.isProfessorSpeaking = false :=
  interruption_runs_after_enqueue midPlaybackState audioInterruptMsg 1 0 0 rfl rfl rfl

/-- C5: on a turn-complete message, each role with a non-empty
accumulator contributes exactly one message to the log — the user
message before the professor message when both are non-empty, none for
an empty accumulator — and both accumulators are cleared regardless of
their prior contents. -/
theorem turn_complete_flush (st : AppState) (msg : ServerMessage) (dt : ℚ) (now : ℕ)
    (h1 : msg.turnComplete = true) (h2 : msg.inputTranscription = none)
    (h3 : msg.outputTranscription = none) (h4 : msg.inlineAudioData = none)
    (h5 : msg.interrupted = false) :
    (onmessage st msg dt now).1.messages =
      st.messages
        ++ (if st.currentInputTrans ≠ "" then
              [{ role := Role.user, text := st.currentInputTrans, timestamp := now }] else [])
        ++ (if st.currentOutputTrans ≠ "" then
              [{ role := Role.professor, text := st.currentOutputTrans, timestamp := now }] else []) ∧
    (onmessage st msg dt now).1.currentInputTrans = "" ∧
    (onmessage st msg dt now).1.currentOutputTrans = "" := by
  simp only [onmessage, audioStage, interruptStage, transcriptStage, h1, h2, h3, h4, h5,
    if_true, if_false, Bool.false_eq_true]
  simp only [flushTurn]
  split_ifs <;> simp_all

/-- A connected session whose two transcript accumulators already hold
one full utterance each. -/
def loadedState : AppState :=
  { midPlaybackState with currentInputTrans := "Hello world", currentOutputTrans := "Hi there" }

/-- A turn-complete-only inbound message. -/
def turnCompleteMsg : ServerMessage :=
  { inputTranscription := none, outputTranscription := none, turnComplete := true,
    inlineAudioData := none, interrupted := false }

/-- C5 witness: flushing accumulators "Hello world" / "Hi there"
appends exactly the user message then the professor message, and clears
both accumulators. -/
theorem turn_complete_flush_witness :
    (onmessage loadedState turnCompleteMsg 0 7).1.messages =
      [{ role := Role.user, text := "Hello world", timestamp := 7 },
       { role := Role.professor, text := "Hi there", timestamp := 7 }] ∧
    (onmessage loadedState turnCompleteMsg 0 7).1.currentInputTrans = "" ∧
    (onmessage loadedState turnCompleteMsg 0 7).1.currentOutputTrans = "" := by
  have h := turn_complete_flush loadedState turnCompleteMsg 0 7 rfl rfl rfl rfl rfl
  exact ⟨by rw [h.1]; decide, h.2.1, h.2.2⟩

theorem enqueueSeq_events (items : List (ℚ × ℚ)) : ∀ (st : AppState) (c : ℚ),
    st.nextStartTime = c → noIdleGaps c items → (enqueueSeq st items).2 = scheduleFrom c items := by
  induction items with
  | nil => intro st c h hg; rfl
  | cons p rest ih =>
    obtain ⟨d, t⟩ := p
    intro st c h hg
    simp only [noIdleGaps] at hg
    obtain ⟨ht, hg2⟩ := hg
    have hst : (enqueueAudio st d t).2 = AudioEvent.enqueue c d := by
      simp [enqueueAudio, h, max_eq_left ht]
    have hcur : (enqueueAudio st d t).1.nextStartTime = c + d := by
      simp [enqueueAudio, h, max_eq_left ht]
    simp only [enqueueSeq, scheduleFrom]
    rw [hst, ih _ _ hcur hg2]

theorem scheduleFrom_get (items : List (ℚ × ℚ)) : ∀ (c : ℚ) (k : ℕ),
    (scheduleFrom c items).get? k =
      (items.get? k).map
        (fun p => AudioEvent.enqueue (c + ((items.take k).map Prod.fst).sum) p.1) := by
  induction items with
  | nil => intro c k; simp [scheduleFrom]
  | cons p rest ih =>
    obtain ⟨d, t⟩ := p
    intro c k
    cases k with
    | zero => simp [scheduleFrom]
    | succ k =>
      simp only [scheduleFrom, List.get?_cons_succ, List.take_succ_cons, List.map_cons,
        List.sum_cons, ih (c + d) k]
      cases h : rest.get? k <;> simp [h, add_assoc]

theorem mem_scheduleFrom (items : List (ℚ × ℚ)) : ∀ (c : ℚ) (e : AudioEvent),
    e ∈ scheduleFrom c items → (∀ p ∈ items, 0 ≤ p.1) →
    ∃ s d, e = AudioEvent.enqueue s d ∧ c ≤ s ∧ 0 ≤ d := by
  induction items with
  | nil => intro c e he _; simp [scheduleFrom] at he
  | cons p rest ih =>
    obtain ⟨d, t⟩ := p
    intro c e he hd
    simp only [scheduleFrom, List.mem_cons] at he
    rcases he with rfl | he
    · exact ⟨c, d, rfl, le_refl c, hd (d, t) (by simp)⟩
    · have hd0 : 0 ≤ d := hd (d, t) (by simp)
      obtain ⟨s, d2, rfl, hs, hd2⟩ := ih (c + d) e he (fun q hq => hd q (by simp [hq]))
      exact ⟨s, d2, rfl, by linarith, hd2⟩

theorem scheduleFrom_pairwise (items : List (ℚ × ℚ)) : ∀ (c : ℚ),
    (∀ p ∈ items, 0 ≤ p.1) → (scheduleFrom c items).Pairwise segDisjoint := by
  induction items with
  | nil => intro c _; simp [scheduleFrom]
  | cons p rest ih =>
    obtain ⟨d, t⟩ := p
    intro c hd
    simp only [scheduleFrom]
    refine List.Pairwise.cons ?_ (ih (c + d) (fun q hq => hd q (by simp [hq])))
    intro e he
    obtain ⟨s, d2, rfl, hs, _⟩ :=
      mem_scheduleFrom rest (c + d) e he (fun q hq => hd q (by simp [hq]))
    exact Or.inl hs

/-- C3: enqueueing segments of durations `d1..dN` in arrival order from
a reset cursor, with no interruption and no idle gaps (the device clock
never overtakes the cursor), schedules segment `k` to start exactly at
the sum of the durations of segments `1..k-1`, and no two scheduled
segments' `[start, start + duration)` intervals overlap. -/
theorem gapless_scheduling (st : AppState) (items : List (ℚ × ℚ))
    (h0 : st.nextStartTime = 0) (hgap : noIdleGaps 0 items)
    (hdur : ∀ p ∈ items, 0 ≤ p.1) :
    (∀ k : ℕ, (enqueueSeq st items).2.get? k =
      (items.get? k).map
        (fun p => AudioEvent.enqueue (((items.take k).map Prod.fst).sum) p.1)) ∧
    (enqueueSeq st items).2.Pairwise segDisjoint := by
  rw [enqueueSeq_events items st 0 h0 hgap]
  constructor
  · intro k
    rw [scheduleFrom_get]
    cases h : items.get? k <;> simp [h]
  · exact scheduleFrom_pairwise items 0 hdur

/-- Three segments of durations 1, 2, 3 arriving at device times 0, 1,
3: back-to-back, never letting the device clock overtake the cursor. -/
def gaplessItems : List (ℚ × ℚ) := [(1, 0), (2, 1), (3, 3)]

/-- The mid-playback state just after a reset: cursor 0, no in-flight
segments. -/
def freshState : AppState := stopAllAudio midPlaybackState

/-- C3 witness: for the concrete 1s/2s/3s arrival sequence the third
segment starts at 1 + 2 = 3 and the schedule is pairwise disjoint. -/
theorem gapless_scheduling_witness :
    (enqueueSeq freshState gaplessItems).2.get? 2 = some (AudioEvent.enqueue 3 3) ∧
    (enqueueSeq freshState gaplessItems).2.Pairwise segDisjoint := by
  have h := gapless_scheduling freshState gaplessItems rfl
    (by norm_num [noIdleGaps, gaplessItems])
    (by intro p hp; simp [gaplessItems] at hp; rcases hp with rfl | rfl | rfl <;> norm_num)
  refine ⟨?_, h.2⟩
  have h1 := h.1 2
  norm_num [gaplessItems] at h1
  simpa [gaplessItems, List.get?_eq_getElem?] using h1

theorem clampSample_mem (s : ℚ) : -1 ≤ clampSample s ∧ clampSample s ≤ 1 := by
  unfold clampSample
  exact ⟨le_max_left _ _, max_le (by norm_num) (min_le_left _ _)⟩

theorem encodeSample_bounds (s : ℚ) : -32767 ≤ encodeSample s ∧ encodeSample s ≤ 32767 := by
  obtain ⟨h1, h2⟩ := clampSample_mem s
  have hy1 : (-32767 : ℚ) ≤ clampSample s * 32767 := by nlinarith
  have hy2 : clampSample s * 32767 ≤ 32767 := by nlinarith
  have hr := abs_sub_round (clampSample s * 32767)
  rw [abs_le] at hr
  unfold encodeSample
  constructor
  · have hq : ((-32768 : ℤ) : ℚ) < (round (clampSample s * 32767) : ℚ) := by
      push_cast
      linarith [hr.1, hr.2]
    have hz : (-32768 : ℤ) < round (clampSample s * 32767) := by exact_mod_cast hq
    omega
  · have hq : (round (clampSample s * 32767) : ℚ) < ((32768 : ℤ) : ℚ) := by
      push_cast
      linarith [hr.1, hr.2]
    have hz : round (clampSample s * 32767) < (32768 : ℤ) := by exact_mod_cast hq
    omega

theorem bytesToInt16LE_int16ToBytesLE (v : ℤ) (h1 : -32768 ≤ v) (h2 : v ≤ 32767) :
    bytesToInt16LE ((v % 65536).toNat % 256) ((v % 65536).toNat / 256) = v := by
  simp only [bytesToInt16LE]
  split <;> omega

theorem decode_encode (frame : List ℚ) :
    decodeChunk (encodeFrame frame) = frame.map (fun s => (encodeSample s : ℚ) / 32768) := by
  induction frame with
  | nil => rfl
  | cons s rest ih =>
    have hb := encodeSample_bounds s
    show decodeChunk (int16ToBytesLE (encodeSample s) ++ encodeFrame rest) = _
    simp only [int16ToBytesLE, List.cons_append, List.nil_append, decodeChunk]
    rw [bytesToInt16LE_int16ToBytesLE (encodeSample s) (by omega) (by omega)]
    simp [ih]

theorem encodeSample_error (s : ℚ) (h1 : -1 ≤ s) (h2 : s ≤ 1) :
    |(encodeSample s : ℚ) / 32768 - s| ≤ 3 / 65536 := by
  have hcl : clampSample s = s := by
    unfold clampSample
    rw [min_eq_right h2, max_eq_right h1]
  unfold encodeSample
  rw [hcl]
  have hr : |(round (s * 32767) : ℚ) - s * 32767| ≤ 1 / 2 := by
    rw [abs_sub_comm]
    exact abs_sub_round (s * 32767)
  have habs : |s| ≤ 1 := abs_le.mpr ⟨h1, h2⟩
  have key : |(round (s * 32767) : ℚ) - 32768 * s| ≤ 3 / 2 := by
    have hsplit : (round (s * 32767) : ℚ) - 32768 * s =
        ((round (s * 32767) : ℚ) - s * 32767) + (-s) := by ring
    rw [hsplit]
    calc |((round (s * 32767) : ℚ) - s * 32767) + (-s)|
        ≤ |(round (s * 32767) : ℚ) - s * 32767| + |(-s)| := abs_add _ _
      _ ≤ 1 / 2 + 1 := add_le_add hr (by rwa [abs_neg])
      _ = 3 / 2 := by norm_num
  have heq : (round (s * 32767) : ℚ) / 32768 - s =
      ((round (s * 32767) : ℚ) - 32768 * s) / 32768 := by ring
  rw [heq, abs_div, abs_of_pos (by norm_num : (0 : ℚ) < 32768),
    div_le_iff₀ (by norm_num : (0 : ℚ) < 32768)]
  calc |(round (s * 32767) : ℚ) - 32768 * s| ≤ 3 / 2 := key
    _ = 3 / 65536 * 32768 := by norm_num

/-- C7 (amended): decoding the encoded chunk of a frame of samples in
[-1,1] reproduces each sample within 3/65536 (= 1.5/32768) absolute
error; the claimed 1/32768 bound is too tight (see the
counterexample), since rounding contributes up to 1/2 quantum and the
32767-vs-32768 scale asymmetry up to another |s| quantum. -/
theorem pcm_roundtrip_error_bound (frame : List ℚ) (h : ∀ s ∈ frame, -1 ≤ s ∧ s ≤ 1) :
    List.Forall₂ (fun out s => |out - s| ≤ 3 / 65536)
      (decodeChunk (encodeFrame frame)) frame := by
  rw [decode_encode]
  revert h
  induction frame with
  | nil => intro h; exact List.Forall₂.nil
  | cons s rest ih =>
    intro h
    simp only [List.map_cons]
    exact List.Forall₂.cons
      (encodeSample_error s (h s (by simp)).1 (h s (by simp)).2)
      (ih fun q hq => h q (by simp [hq]))

/-- C7 counterexample: the in-range sample -65533/65534 encodes to
-32766 (round(-32766.5) = -32766) and decodes to -16383/16384, an
absolute error of 49150/1073709056 which exceeds 1/32768. -/
theorem pcm_roundtrip_counterexample :
    (-1 : ℚ) ≤ -65533 / 65534 ∧ (-65533 / 65534 : ℚ) ≤ 1 ∧
    decodeChunk (encodeFrame [(-65533 / 65534 : ℚ)]) = [(-16383 / 16384 : ℚ)] ∧
    ¬ |(-16383 / 16384 : ℚ) - (-65533 / 65534 : ℚ)| ≤ 1 / 32768 := by
  refine ⟨by norm_num, by norm_num, ?_, ?_⟩
  · rw [decode_encode]
    have he : encodeSample ((-65533 : ℚ) / 65534) = -32766 := by
      unfold encodeSample clampSample
      rw [min_eq_right (by norm_num), max_eq_right (by norm_num), round_eq]
      norm_num
    simp only [List.map_cons, List.map_nil, he]
    norm_num
  · rw [abs_of_nonneg (by norm_num)]
    norm_num

/-- C7 witness: the amended bound at the concrete frame
[1/2, 1, -1]. -/
theorem pcm_roundtrip_error_bound_witness :
    List.Forall₂ (fun out s => |out - s| ≤ 3 / 65536)
      (decodeChunk (encodeFrame [(1 / 2 : ℚ), 1, -1])) [(1 / 2 : ℚ), 1, -1] :=
  pcm_roundtrip_error_bound [(1 / 2 : ℚ), 1, -1]
    (by intro s hs; simp at hs; rcases hs with rfl | rfl | rfl <;> norm_num)

end EnglishTeacher
